import Mathlib

/-!
Shallow embedding of the derived-priority scoring engine of
`frontend/utils/priorityCalculation.ts` (the TASKWARRIOR_WEIGHTS version:
additive blocked penalty, age score, graded due-date ramp).

Timestamps are modelled as milliseconds since the epoch (`ℤ`); an optional
date field is `Option ℤ`, where `none` covers both an absent date string and
an unparsable one (the TypeScript code treats the two identically).  Scores
are rationals (`ℚ`); the JavaScript numbers involved are all exact decimals,
so `ℚ` is a faithful carrier.  The current instant (`new Date()` in the
source) is threaded as an explicit parameter `now`.
-/

namespace Vikunja

/-- A directed relation entry on a task, as served by the Vikunja API:
a relation kind (the engine scores only `"blocked"` and `"blocking"`) and
the id of the other task. -/
structure TaskRelation where
  relation_kind : String
  other_task_id : ℤ
deriving DecidableEq

/-- The slice of the `Task` record used by the scoring engine. -/
structure Task where
  id : ℤ
  completed : Bool
  priority : ℤ
  dueDate : Option ℤ
  startDate : Option ℤ
  updated : Option ℤ
  relatedTasks : List TaskRelation
  calculatedPriority : Option ℚ
deriving DecidableEq

/-- Constant `TASKWARRIOR_WEIGHTS.PRIORITY_LEVELS`: map Vikunja 0-5 priority to
Taskwarrior urgency. -/
def PRIORITY_LEVELS : List ℚ := [0, 1, 39/10, 59/10, 7, 8]

/-- Constant `TASKWARRIOR_WEIGHTS.DUE_RANGE_DAYS`. -/
def DUE_RANGE_DAYS : ℚ := 14

/-- Constant `TASKWARRIOR_WEIGHTS.DUE_MAX`. -/
def DUE_MAX : ℚ := 12

/-- Constant `TASKWARRIOR_WEIGHTS.BLOCKING_BONUS`. -/
def BLOCKING_BONUS : ℚ := 8

/-- Constant `TASKWARRIOR_WEIGHTS.BLOCKING_INHERITANCE` (0.2). -/
def BLOCKING_INHERITANCE : ℚ := 1/5

/-- Constant `TASKWARRIOR_WEIGHTS.BLOCKED_PENALTY`. -/
def BLOCKED_PENALTY : ℚ := -5

/-- Constant `TASKWARRIOR_WEIGHTS.START_DATE_PAST_BONUS` (1.5). -/
def START_DATE_PAST_BONUS : ℚ := 3/2

/-- Constant `TASKWARRIOR_WEIGHTS.START_DATE_FUTURE_PENALTY`. -/
def START_DATE_FUTURE_PENALTY : ℚ := -3

/-- Constant `TASKWARRIOR_WEIGHTS.AGE_DECAY_DAYS`. -/
def AGE_DECAY_DAYS : ℚ := 45

/-- Constant `TASKWARRIOR_WEIGHTS.AGE_MAX`. -/
def AGE_MAX : ℚ := 2

/-- Milliseconds in one day (`1000 * 60 * 60 * 24`). -/
def msPerDay : ℤ := 86400000

/-- Embedding of `getPriorityScore`: clamp the priority ordinal into the index range of
`PRIORITY_LEVELS` and look the weight up. -/
def getPriorityScore (priority : ℤ) : ℚ :=
  let index := max 0 (min priority ((PRIORITY_LEVELS.length : ℤ) - 1))
  PRIORITY_LEVELS.getD index.toNat 0

/-- Result record of `evaluateDueDate`. -/
structure DueDateResult where
  score : ℚ
  hasDueDate : Bool
deriving DecidableEq

/-- Embedding of `evaluateDueDate`: due-date presence and urgency.  Missing (or
unparsable, folded into `none`) dates give score 0 with the flag down;
otherwise the score is a ramp of `diffDays = (due - now) / msPerDay`. -/
def evaluateDueDate (now : ℤ) (dueDate : Option ℤ) : DueDateResult :=
  match dueDate with
  | none => ⟨0, false⟩
  | some due =>
    let diffDays : ℚ := ((due : ℚ) - (now : ℚ)) / (86400000 : ℚ)
    if diffDays ≤ 0 then ⟨DUE_MAX, true⟩
    else if diffDays ≤ DUE_RANGE_DAYS then
      ⟨(1 - diffDays / DUE_RANGE_DAYS) * DUE_MAX, true⟩
    else ⟨0, true⟩

/-- Embedding of `getStartDateScore`: future start dates lower the score, past (or
current-instant) start dates raise it, absent starts are neutral. -/
def getStartDateScore (now : ℤ) (startDate : Option ℤ) : ℚ :=
  match startDate with
  | none => 0
  | some s => if now < s then START_DATE_FUTURE_PENALTY else START_DATE_PAST_BONUS

/-- Embedding of `getAgeScore`: saturating bonus for stale tasks, zero when `updated` is
absent or not in the past. -/
def getAgeScore (now : ℤ) (updated : Option ℤ) : ℚ :=
  match updated with
  | none => 0
  | some u =>
    let diffDays : ℚ := ((now : ℚ) - (u : ℚ)) / (86400000 : ℚ)
    if diffDays ≤ 0 then 0
    else (min 1 (diffDays / AGE_DECAY_DAYS)) * AGE_MAX

/-- Embedding of `getBlockingTasks`: the tasks this task is declared `blocked` by,
resolved against the collection. -/
def getBlockingTasks (task : Task) (allTasks : List Task) : List Task :=
  if task.relatedTasks.isEmpty then []
  else
    let blockingTaskIds :=
      (task.relatedTasks.filter (fun r => r.relation_kind = "blocked")).map
        (fun r => r.other_task_id)
    allTasks.filter (fun t => blockingTaskIds.contains t.id)

/-- Embedding of `getBlockedTasks`: the tasks this task declares it is `blocking`. -/
def getBlockedTasks (task : Task) (allTasks : List Task) : List Task :=
  if task.relatedTasks.isEmpty then []
  else
    let blockedTaskIds :=
      (task.relatedTasks.filter (fun r => r.relation_kind = "blocking")).map
        (fun r => r.other_task_id)
    allTasks.filter (fun t => blockedTaskIds.contains t.id)

/-- Embedding of `isTaskBlocked`: blocked iff at least one blocking task is incomplete. -/
def isTaskBlocked (task : Task) (allTasks : List Task) : Bool :=
  if task.relatedTasks.isEmpty then false
  else (getBlockingTasks task allTasks).any (fun b => !b.completed)

/-- The id set of a task collection (used only for the termination measure
of the recursive walk). -/
def idsOf (allTasks : List Task) : Finset ℤ :=
  (allTasks.map Task.id).toFinset

/-- Termination measure for the recursive priority walk: the visited set
grows on every recursive call, and recursive calls only ever target members
of the collection. -/
def priorityMeasure (task : Task) (allTasks : List Task) (visited : Finset ℤ) : ℕ :=
  2 * ((idsOf allTasks) \ visited).card +
    (if task.id ∈ idsOf allTasks ∪ visited then 0 else 1)

lemma mem_of_getBlockedTasks {d task : Task} {allTasks : List Task}
    (h : d ∈ getBlockedTasks task allTasks) : d ∈ allTasks := by
  unfold getBlockedTasks at h
  split at h
  · simp at h
  · exact List.mem_of_mem_filter h

lemma id_mem_idsOf {d : Task} {allTasks : List Task} (h : d ∈ allTasks) :
    d.id ∈ idsOf allTasks := by
  unfold idsOf
  simp only [List.mem_toFinset, List.mem_map]
  exact ⟨d, h, rfl⟩

lemma priorityMeasure_lt (d task : Task) (allTasks : List Task) (visited : Finset ℤ)
    (h1 : task.id ∉ visited) (hd : d.id ∈ idsOf allTasks) :
    priorityMeasure d allTasks (insert task.id visited)
      < priorityMeasure task allTasks visited := by
  unfold priorityMeasure
  have hdin : d.id ∈ idsOf allTasks ∪ insert task.id visited :=
    Finset.mem_union_left _ hd
  rw [if_pos hdin]
  by_cases htask : task.id ∈ idsOf allTasks
  · have hmem : task.id ∈ idsOf allTasks \ visited :=
      Finset.mem_sdiff.mpr ⟨htask, h1⟩
    have hsub : idsOf allTasks \ insert task.id visited
        = (idsOf allTasks \ visited).erase task.id := by
      ext x
      simp only [Finset.mem_sdiff, Finset.mem_insert, Finset.mem_erase]
      tauto
    have hpos : 0 < (idsOf allTasks \ visited).card :=
      Finset.card_pos.mpr ⟨_, hmem⟩
    have hin2 : task.id ∈ idsOf allTasks ∪ visited := Finset.mem_union_left _ htask
    rw [hsub, Finset.card_erase_of_mem hmem, if_pos hin2]
    omega
  · have hsd : idsOf allTasks \ insert task.id visited = idsOf allTasks \ visited := by
      ext x
      simp only [Finset.mem_sdiff, Finset.mem_insert]
      constructor
      · rintro ⟨hx, h2⟩
        exact ⟨hx, fun hv => h2 (Or.inr hv)⟩
      · rintro ⟨hx, hv⟩
        refine ⟨hx, ?_⟩
        rintro (he | hvv)
        · exact htask (he ▸ hx)
        · exact hv hvv
    have hnot : task.id ∉ idsOf allTasks ∪ visited := by
      simp only [Finset.mem_union]
      rintro (h | h)
      · exact htask h
      · exact h1 h
    rw [hsd, if_neg hnot]
    omega

/-- Embedding of `calculateTaskPriority`: recursive single-task score.  Returns 0 on a
visited id (cycle guard) or a completed task; otherwise sums the base,
due-date, start-date and age factors plus a blocking bonus (flat bonus when
at least one incomplete dependent exists, plus an inherited share of each
incomplete dependent recursive score with the current id added to the
visited set), then adds the blocked penalty when the task is blocked. -/
def calculateTaskPriority (now : ℤ) (task : Task) (allTasks : List Task)
    (visited : Finset ℤ) : ℚ :=
  if h1 : task.id ∈ visited then 0
  else if task.completed then 0
  else
    let baseScore := getPriorityScore task.priority
    let dueDateScore := (evaluateDueDate now task.dueDate).score
    let startDateScore := getStartDateScore now task.startDate
    let ageScore := getAgeScore now task.updated
    let blocked := isTaskBlocked task allTasks
    let blockedTasks := (getBlockedTasks task allTasks).filter (fun t => !t.completed)
    let flatBonus : ℚ := if blockedTasks.isEmpty then 0 else BLOCKING_BONUS
    let inherited : ℚ :=
      (blockedTasks.attach.map (fun d =>
        calculateTaskPriority now d.1 allTasks (insert task.id visited)
          * BLOCKING_INHERITANCE)).sum
    let blockingBonus := flatBonus + inherited
    let totalBeforeBlocked :=
      baseScore + dueDateScore + startDateScore + ageScore + blockingBonus
    if blocked then totalBeforeBlocked + BLOCKED_PENALTY else totalBeforeBlocked
termination_by priorityMeasure task allTasks visited
decreasing_by
  exact priorityMeasure_lt _ _ _ _ h1
    (id_mem_idsOf (mem_of_getBlockedTasks (List.mem_of_mem_filter d.2)))

/-- The incomplete dependents of a task: `getBlockedTasks` filtered to
incomplete tasks (the list the blocking bonus ranges over). -/
def incompleteDependents (task : Task) (allTasks : List Task) : List Task :=
  (getBlockedTasks task allTasks).filter (fun t => !t.completed)

/-- The blocking bonus a task earns for the incomplete tasks it blocks:
the flat bonus (when any exist) plus the inheritance share of each
recursive score of each incomplete dependent. -/
def blockingBonusOf (now : ℤ) (task : Task) (allTasks : List Task)
    (visited : Finset ℤ) : ℚ :=
  (if (incompleteDependents task allTasks).isEmpty then 0 else BLOCKING_BONUS) +
    ((incompleteDependents task allTasks).map (fun d =>
      calculateTaskPriority now d allTasks (insert task.id visited)
        * BLOCKING_INHERITANCE)).sum

/-- The pre-penalty total of an incomplete task: base, due-date, start-date
and age factors plus the blocking bonus. -/
def totalBeforeBlockedOf (now : ℤ) (task : Task) (allTasks : List Task)
    (visited : Finset ℤ) : ℚ :=
  getPriorityScore task.priority + (evaluateDueDate now task.dueDate).score +
    getStartDateScore now task.startDate + getAgeScore now task.updated +
    blockingBonusOf now task allTasks visited

lemma calculateTaskPriority_visited (now : ℤ) (task : Task) (allTasks : List Task)
    (visited : Finset ℤ) (h : task.id ∈ visited) :
    calculateTaskPriority now task allTasks visited = 0 := by
  rw [calculateTaskPriority]
  simp [h]

lemma calculateTaskPriority_completed (now : ℤ) (task : Task) (allTasks : List Task)
    (visited : Finset ℤ) (h : task.completed = true) :
    calculateTaskPriority now task allTasks visited = 0 := by
  rw [calculateTaskPriority]
  split
  · rfl
  · simp [h]

lemma sum_attach_map (l : List Task) (f : Task → ℚ) :
    (l.attach.map (fun d => f d.1)).sum = (l.map f).sum := by
  rw [List.attach_map_val]

lemma calculateTaskPriority_eq (now : ℤ) (task : Task) (allTasks : List Task)
    (visited : Finset ℤ) (h1 : task.id ∉ visited) (h2 : task.completed = false) :
    calculateTaskPriority now task allTasks visited =
      if isTaskBlocked task allTasks then
        totalBeforeBlockedOf now task allTasks visited + BLOCKED_PENALTY
      else totalBeforeBlockedOf now task allTasks visited := by
  rw [calculateTaskPriority]
  rw [dif_neg h1]
  rw [if_neg (by simp [h2])]
  have hsum :=
    sum_attach_map ((getBlockedTasks task allTasks).filter (fun t => !t.completed))
      (fun d => calculateTaskPriority now d allTasks (insert task.id visited)
        * BLOCKING_INHERITANCE)
  simp only [hsum]
  rfl

/-- Record `PriorityBreakdown`: the transparency record.  In the source, the
completed-task branch returns an object literal that omits the `ageScore`
field entirely; the field is therefore modelled as `Option ℚ` with `none`
standing for "absent from the returned record". -/
structure PriorityBreakdown where
  baseScore : ℚ
  dueDateScore : ℚ
  hasDueDate : Bool
  startDateScore : ℚ
  ageScore : Option ℚ
  blockingBonus : ℚ
  isBlocked : Bool
  totalBeforeBlocked : ℚ
  finalScore : ℚ
deriving DecidableEq

/-- Embedding of `calculatePriorityBreakdown`: component-by-component account of one
task score; must agree with `calculateTaskPriority` on the final value. -/
def calculatePriorityBreakdown (now : ℤ) (task : Task) (allTasks : List Task) :
    PriorityBreakdown :=
  if task.completed then
    { baseScore := 0, dueDateScore := 0, hasDueDate := false, startDateScore := 0,
      ageScore := none, blockingBonus := 0, isBlocked := false,
      totalBeforeBlocked := 0, finalScore := 0 }
  else
    let baseScore := getPriorityScore task.priority
    let dueEval := evaluateDueDate now task.dueDate
    let startDateScore := getStartDateScore now task.startDate
    let ageScore := getAgeScore now task.updated
    let isBlocked := isTaskBlocked task allTasks
    let blockedTasks := (getBlockedTasks task allTasks).filter (fun t => !t.completed)
    let flatBonus : ℚ := if blockedTasks.isEmpty then 0 else BLOCKING_BONUS
    let inherited : ℚ :=
      (blockedTasks.map (fun d =>
        calculateTaskPriority now d allTasks (insert task.id (∅ : Finset ℤ))
          * BLOCKING_INHERITANCE)).sum
    let blockingBonus := flatBonus + inherited
    let totalBeforeBlocked :=
      baseScore + dueEval.score + startDateScore + ageScore + blockingBonus
    let finalScore :=
      if isBlocked then totalBeforeBlocked + BLOCKED_PENALTY else totalBeforeBlocked
    { baseScore := baseScore, dueDateScore := dueEval.score,
      hasDueDate := dueEval.hasDueDate, startDateScore := startDateScore,
      ageScore := some ageScore, blockingBonus := blockingBonus,
      isBlocked := isBlocked, totalBeforeBlocked := totalBeforeBlocked,
      finalScore := finalScore }

/-- Embedding of `calculatePriorities` (`scoreAll`): annotate every task with its scalar
score, computed with a fresh empty visited set per top-level task. -/
def calculatePriorities (now : ℤ) (tasks : List Task) : List Task :=
  tasks.map (fun task =>
    { task with calculatedPriority := some (calculateTaskPriority now task tasks ∅) })

/-- The comparator of `sortByPriority` turned into a boolean
"sorts-no-later-than" relation: `sortLE a b` holds exactly when the
JavaScript comparator returns a non-positive number on `(a, b)`. -/
def sortLE (a b : Task) : Bool :=
  if a.completed ≠ b.completed then !a.completed
  else
    let aPriority := a.calculatedPriority.getD 0
    let bPriority := b.calculatedPriority.getD 0
    if aPriority ≠ bPriority then decide (bPriority ≤ aPriority)
    else decide (b.id ≤ a.id)

/-- Embedding of `sortByPriority`: sort a copy of the list with the comparator
(completed last, then score descending, then id as tiebreaker). -/
def sortByPriority (tasks : List Task) : List Task :=
  tasks.mergeSort (fun a b => sortLE a b)

lemma breakdown_finalScore_of_incomplete (now : ℤ) (task : Task)
    (allTasks : List Task) (h2 : task.completed = false) :
    (calculatePriorityBreakdown now task allTasks).finalScore =
      if isTaskBlocked task allTasks then
        totalBeforeBlockedOf now task allTasks ∅ + BLOCKED_PENALTY
      else totalBeforeBlockedOf now task allTasks ∅ := by
  simp only [calculatePriorityBreakdown, h2, Bool.false_eq_true, if_false]
  rfl

/-- C2: for every task and collection (same current instant), the scalar
score of `calculateTaskPriority` with a fresh empty visited set equals the
`finalScore` field of `calculatePriorityBreakdown`: the two functions share
the constants and the recursive propagation and agree exactly. -/
theorem C2_scalar_eq_breakdown (now : ℤ) (task : Task) (allTasks : List Task) :
    calculateTaskPriority now task allTasks ∅ =
      (calculatePriorityBreakdown now task allTasks).finalScore := by
  by_cases hc : task.completed
  · rw [calculateTaskPriority_completed now task allTasks ∅ hc]
    simp [calculatePriorityBreakdown, hc]
  · have h2 : task.completed = false := by simpa using hc
    rw [calculateTaskPriority_eq now task allTasks ∅ (by simp) h2,
      breakdown_finalScore_of_incomplete now task allTasks h2]

/-- C3: a completed task scores exactly zero — scalar (under any visited
set) and breakdown `finalScore` alike — its breakdown `isBlocked` flag is
false, and it contributes no urgency to dependents: it never appears in any
incomplete-dependent list of any task, and its recursive score is zero. -/
theorem C3_completed_scores_zero (now : ℤ) (task : Task) (allTasks : List Task)
    (h : task.completed = true) :
    (∀ visited : Finset ℤ, calculateTaskPriority now task allTasks visited = 0) ∧
    (calculatePriorityBreakdown now task allTasks).finalScore = 0 ∧
    (calculatePriorityBreakdown now task allTasks).isBlocked = false ∧
    (∀ t : Task, task ∉ incompleteDependents t allTasks) := by
  refine ⟨fun visited => calculateTaskPriority_completed now task allTasks visited h,
    ?_, ?_, ?_⟩
  · simp [calculatePriorityBreakdown, h]
  · simp [calculatePriorityBreakdown, h]
  · intro t hmem
    have := List.of_mem_filter hmem
    simp [h] at this

/-- Witness for C3 at a concrete completed task. -/
theorem C3_witness :
    (⟨7, true, 3, some 0, none, none, [], none⟩ : Task).completed = true ∧
    calculateTaskPriority 0 ⟨7, true, 3, some 0, none, none, [], none⟩ [] ∅ = 0 :=
  ⟨rfl, (C3_completed_scores_zero 0 ⟨7, true, 3, some 0, none, none, [], none⟩ [] rfl).1 ∅⟩

/-- Time-to-due in days, as computed by `evaluateDueDate`. -/
def diffDaysQ (now due : ℤ) : ℚ :=
  ((due : ℚ) - (now : ℚ)) / (86400000 : ℚ)

/-- The due-date ramp as a function of time-to-due in days. -/
def dueRamp (t : ℚ) : ℚ :=
  if t ≤ 0 then DUE_MAX
  else if t ≤ DUE_RANGE_DAYS then (1 - t / DUE_RANGE_DAYS) * DUE_MAX
  else 0

lemma evaluateDueDate_score_some (now due : ℤ) :
    (evaluateDueDate now (some due)).score = dueRamp (diffDaysQ now due) := by
  simp only [evaluateDueDate, dueRamp, diffDaysQ]
  split_ifs <;> rfl

lemma evaluateDueDate_flag_some (now due : ℤ) :
    (evaluateDueDate now (some due)).hasDueDate = true := by
  simp only [evaluateDueDate]
  split_ifs <;> rfl

lemma dueRamp_of_nonpos {t : ℚ} (h : t ≤ 0) : dueRamp t = DUE_MAX := by
  unfold dueRamp
  rw [if_pos h]

lemma dueRamp_lt_max {t : ℚ} (h : 0 < t) : dueRamp t < DUE_MAX := by
  unfold dueRamp DUE_MAX DUE_RANGE_DAYS
  rw [if_neg (by linarith)]
  split_ifs with h2
  · nlinarith
  · norm_num

lemma dueRamp_antitone {t1 t2 : ℚ} (h : t1 ≤ t2) : dueRamp t2 ≤ dueRamp t1 := by
  unfold dueRamp DUE_MAX DUE_RANGE_DAYS
  split_ifs <;> nlinarith

lemma dueRamp_strict {t1 t2 : ℚ} (h0 : 0 ≤ t1) (h7 : t1 ≤ 7) (h : t1 < t2) :
    dueRamp t2 < dueRamp t1 := by
  unfold dueRamp DUE_MAX DUE_RANGE_DAYS
  split_ifs <;> nlinarith

lemma diffDaysQ_le_iff (now due k : ℤ) :
    diffDaysQ now due ≤ (k : ℚ) ↔ due ≤ now + k * msPerDay := by
  unfold diffDaysQ msPerDay
  rw [div_le_iff₀ (by norm_num : (0:ℚ) < 86400000)]
  constructor
  · intro h
    have h2 : (due : ℚ) ≤ (now : ℚ) + (k : ℚ) * 86400000 := by linarith
    exact_mod_cast h2
  · intro h
    have h2 : (due : ℚ) ≤ (now : ℚ) + (k : ℚ) * 86400000 := by exact_mod_cast h
    linarith

lemma diffDaysQ_gt_iff (now due k : ℤ) :
    (k : ℚ) < diffDaysQ now due ↔ now + k * msPerDay < due := by
  rw [← not_iff_not, not_lt, not_lt]
  exact diffDaysQ_le_iff now due k

lemma diffDaysQ_nonpos_iff (now due : ℤ) :
    diffDaysQ now due ≤ 0 ↔ due ≤ now := by
  have h := diffDaysQ_le_iff now due 0
  simpa using h

lemma diffDaysQ_pos_iff (now due : ℤ) :
    0 < diffDaysQ now due ↔ now < due := by
  have h := diffDaysQ_gt_iff now due 0
  simpa using h

lemma diffDaysQ_mono (now : ℤ) {d1 d2 : ℤ} (h : d1 ≤ d2) :
    diffDaysQ now d1 ≤ diffDaysQ now d2 := by
  unfold diffDaysQ
  have hc : (d1 : ℚ) ≤ (d2 : ℚ) := by exact_mod_cast h
  gcongr

/-- C4: the due-date contribution is monotonically non-increasing in the
due instant; the overdue band (due ≤ now) scores strictly above anything
later; anything due within 24 hours scores strictly above anything later
than 24 hours; likewise for the 3-day and 7-day bands; a task due exactly
now gets the overdue maximum, and a task due in exactly 24 hours scores
below the overdue maximum but strictly above every later due date. -/
theorem C4_due_date_bands (now : ℤ) :
    (∀ d1 d2 : ℤ, d1 ≤ d2 →
      (evaluateDueDate now (some d2)).score ≤ (evaluateDueDate now (some d1)).score) ∧
    (∀ d1 d2 : ℤ, d1 ≤ now → now < d2 →
      (evaluateDueDate now (some d2)).score < (evaluateDueDate now (some d1)).score) ∧
    (∀ d1 d2 : ℤ, now < d1 → d1 ≤ now + msPerDay → now + msPerDay < d2 →
      (evaluateDueDate now (some d2)).score < (evaluateDueDate now (some d1)).score) ∧
    (∀ d1 d2 : ℤ, now < d1 → d1 ≤ now + 3 * msPerDay → now + 3 * msPerDay < d2 →
      (evaluateDueDate now (some d2)).score < (evaluateDueDate now (some d1)).score) ∧
    (∀ d1 d2 : ℤ, now < d1 → d1 ≤ now + 7 * msPerDay → now + 7 * msPerDay < d2 →
      (evaluateDueDate now (some d2)).score < (evaluateDueDate now (some d1)).score) ∧
    (evaluateDueDate now (some now)).score = DUE_MAX ∧
    ((evaluateDueDate now (some (now + msPerDay))).score < DUE_MAX ∧
      ∀ d2 : ℤ, now + msPerDay < d2 →
        (evaluateDueDate now (some d2)).score
          < (evaluateDueDate now (some (now + msPerDay))).score) := by
  have band : ∀ k d1 d2 : ℤ, 0 ≤ k → k ≤ 7 → now < d1 → d1 ≤ now + k * msPerDay →
      now + k * msPerDay < d2 →
      (evaluateDueDate now (some d2)).score < (evaluateDueDate now (some d1)).score := by
    intro k d1 d2 hk0 hk7 h1 h2 h3
    rw [evaluateDueDate_score_some, evaluateDueDate_score_some]
    have ht1 : 0 < diffDaysQ now d1 := (diffDaysQ_pos_iff now d1).mpr h1
    have ht2 : diffDaysQ now d1 ≤ (k : ℚ) := (diffDaysQ_le_iff now d1 k).mpr h2
    have ht3 : (k : ℚ) < diffDaysQ now d2 := (diffDaysQ_gt_iff now d2 k).mpr h3
    have hk7Q : (k : ℚ) ≤ 7 := by exact_mod_cast hk7
    exact dueRamp_strict (le_of_lt ht1) (le_trans ht2 hk7Q) (lt_of_le_of_lt ht2 ht3)
  refine ⟨?_, ?_, ?_, ?_, ?_, ?_, ?_, ?_⟩
  · intro d1 d2 h
    rw [evaluateDueDate_score_some, evaluateDueDate_score_some]
    exact dueRamp_antitone (diffDaysQ_mono now h)
  · intro d1 d2 h1 h2
    rw [evaluateDueDate_score_some, evaluateDueDate_score_some,
      dueRamp_of_nonpos ((diffDaysQ_nonpos_iff now d1).mpr h1)]
    exact dueRamp_lt_max ((diffDaysQ_pos_iff now d2).mpr h2)
  · intro d1 d2 h1 h2 h3
    exact band 1 d1 d2 (by norm_num) (by norm_num) h1 (by omega) (by omega)
  · intro d1 d2 h1 h2 h3
    exact band 3 d1 d2 (by norm_num) (by norm_num) h1 h2 h3
  · intro d1 d2 h1 h2 h3
    exact band 7 d1 d2 (by norm_num) (by norm_num) h1 h2 h3
  · rw [evaluateDueDate_score_some,
      dueRamp_of_nonpos ((diffDaysQ_nonpos_iff now now).mpr (le_refl now))]
  · rw [evaluateDueDate_score_some]
    exact dueRamp_lt_max ((diffDaysQ_pos_iff now (now + msPerDay)).mpr
      (by unfold msPerDay; omega))
  · intro d2 h
    exact band 1 (now + msPerDay) d2 (by norm_num) (by norm_num)
      (by unfold msPerDay; omega) (by omega) (by omega)

/-- Witness for C4 at concrete instants: due exactly now is the overdue
maximum, and due in 12 hours scores strictly below it. -/
theorem C4_witness :
    (evaluateDueDate 0 (some 0)).score = DUE_MAX ∧
    (evaluateDueDate 0 (some 43200000)).score < (evaluateDueDate 0 (some 0)).score :=
  ⟨(C4_due_date_bands 0).2.2.2.2.2.1,
    (C4_due_date_bands 0).2.1 0 43200000 (by norm_num) (by norm_num)⟩

lemma totalBeforeBlockedOf_startDate (now : ℤ) (t : Task) (allTasks : List Task)
    (s : Option ℤ) (visited : Finset ℤ) :
    totalBeforeBlockedOf now { t with startDate := s } allTasks visited =
      totalBeforeBlockedOf now { t with startDate := none } allTasks visited +
        getStartDateScore now s := by
  show getPriorityScore t.priority + (evaluateDueDate now t.dueDate).score +
      getStartDateScore now s + getAgeScore now t.updated +
      blockingBonusOf now { t with startDate := s } allTasks visited = _
  have hb : blockingBonusOf now { t with startDate := s } allTasks visited =
      blockingBonusOf now { t with startDate := none } allTasks visited := rfl
  rw [hb]
  show _ = getPriorityScore t.priority + (evaluateDueDate now t.dueDate).score +
      getStartDateScore now none + getAgeScore now t.updated +
      blockingBonusOf now { t with startDate := none } allTasks visited +
      getStartDateScore now s
  have hz : getStartDateScore now none = 0 := rfl
  rw [hz]
  ring

/-- C5 (amended): for an incomplete task, holding every other factor fixed,
a future start date gives a strictly lower score than no start date, which
gives a strictly lower score than a start date at or before now; the
start-date modifier is negative for future starts, zero for absent starts
and positive for starts at or before now.  (For a completed task all three
scores are zero, so the unqualified claim fails; see the counterexample.) -/
theorem C5_start_date_ordering (now : ℤ) (t : Task) (allTasks : List Task)
    (sf sp : ℤ) (h2 : t.completed = false) (hf : now < sf) (hp : sp ≤ now) :
    calculateTaskPriority now { t with startDate := some sf } allTasks ∅
        < calculateTaskPriority now { t with startDate := none } allTasks ∅ ∧
    calculateTaskPriority now { t with startDate := none } allTasks ∅
        < calculateTaskPriority now { t with startDate := some sp } allTasks ∅ ∧
    getStartDateScore now (some sf) < 0 ∧
    getStartDateScore now none = 0 ∧
    0 < getStartDateScore now (some sp) := by
  have hfs : getStartDateScore now (some sf) = START_DATE_FUTURE_PENALTY := by
    simp only [getStartDateScore, if_pos hf]
  have hps : getStartDateScore now (some sp) = START_DATE_PAST_BONUS := by
    simp only [getStartDateScore, if_neg (not_lt.mpr hp)]
  have key : ∀ s : Option ℤ,
      calculateTaskPriority now { t with startDate := s } allTasks ∅ =
        (if isTaskBlocked { t with startDate := none } allTasks then
          totalBeforeBlockedOf now { t with startDate := none } allTasks ∅ +
            getStartDateScore now s + BLOCKED_PENALTY
        else
          totalBeforeBlockedOf now { t with startDate := none } allTasks ∅ +
            getStartDateScore now s) := by
    intro s
    rw [calculateTaskPriority_eq now { t with startDate := s } allTasks ∅
      (by simp) h2]
    have hb : isTaskBlocked { t with startDate := s } allTasks =
        isTaskBlocked { t with startDate := none } allTasks := rfl
    rw [hb, totalBeforeBlockedOf_startDate]
  have hz : getStartDateScore now none = 0 := rfl
  rw [key (some sf), key none, key (some sp), hfs, hps, hz]
  unfold START_DATE_FUTURE_PENALTY START_DATE_PAST_BONUS
  split_ifs <;> norm_num

/-- Witness for C5 at a concrete incomplete task. -/
theorem C5_witness :
    calculateTaskPriority 0
        { id := 1, completed := false, priority := 2, dueDate := none,
          startDate := some 10, updated := none, relatedTasks := [],
          calculatedPriority := none } [] ∅
      < calculateTaskPriority 0
        { id := 1, completed := false, priority := 2, dueDate := none,
          startDate := none, updated := none, relatedTasks := [],
          calculatedPriority := none } [] ∅ :=
  (C5_start_date_ordering 0
    { id := 1, completed := false, priority := 2, dueDate := none,
      startDate := none, updated := none, relatedTasks := [],
      calculatedPriority := none } [] 10 (-10) rfl (by norm_num) (by norm_num)).1

/-- A completed task with a future start date (relative to `now = 0`). -/
def c5task : Task :=
  { id := 1, completed := true, priority := 2, dueDate := none,
    startDate := some 5, updated := none, relatedTasks := [],
    calculatedPriority := none }

/-- Counterexample to C5 as stated: for two completed tasks identical
except the start date, both scores are zero, so the strict inequality
`score(future-start) < score(no-start)` fails. -/
theorem C5_counterexample :
    c5task.completed = true ∧ (0 : ℤ) < 5 ∧
    calculateTaskPriority 0 c5task [] ∅ = 0 ∧
    calculateTaskPriority 0 { c5task with startDate := none } [] ∅ = 0 ∧
    ¬ (calculateTaskPriority 0 c5task [] ∅
        < calculateTaskPriority 0 { c5task with startDate := none } [] ∅) := by
  have ha : calculateTaskPriority 0 c5task [] ∅ = 0 :=
    calculateTaskPriority_completed 0 c5task [] ∅ rfl
  have hb : calculateTaskPriority 0 { c5task with startDate := none } [] ∅ = 0 :=
    calculateTaskPriority_completed 0 { c5task with startDate := none } [] ∅ rfl
  refine ⟨rfl, by norm_num, ha, hb, ?_⟩
  rw [ha, hb]
  norm_num

lemma breakdown_totalBeforeBlocked_of_incomplete (now : ℤ) (task : Task)
    (allTasks : List Task) (h2 : task.completed = false) :
    (calculatePriorityBreakdown now task allTasks).totalBeforeBlocked =
      totalBeforeBlockedOf now task allTasks ∅ := by
  simp only [calculatePriorityBreakdown, h2, Bool.false_eq_true, if_false]
  rfl

/-- C6: `isTaskBlocked` holds iff at least one declared blocker, resolved
against the collection, is incomplete (so no blockers, or only completed
blockers, means not blocked); and the final score of an unblocked task is its
pre-penalty total, in the breakdown and — for incomplete tasks — in the
scalar score as well. -/
theorem C6_isBlocked_iff (now : ℤ) (task : Task) (allTasks : List Task) :
    (isTaskBlocked task allTasks = true ↔
      ∃ b, b ∈ getBlockingTasks task allTasks ∧ b.completed = false) ∧
    (isTaskBlocked task allTasks = false →
      (calculatePriorityBreakdown now task allTasks).finalScore =
        (calculatePriorityBreakdown now task allTasks).totalBeforeBlocked) ∧
    (isTaskBlocked task allTasks = false → task.completed = false →
      calculateTaskPriority now task allTasks ∅ =
        totalBeforeBlockedOf now task allTasks ∅) := by
  refine ⟨?_, ?_, ?_⟩
  · unfold isTaskBlocked
    split_ifs with hemp
    · have hg : getBlockingTasks task allTasks = [] := by
        unfold getBlockingTasks
        rw [if_pos hemp]
      simp [hg]
    · simp [List.any_eq_true]
  · intro hnb
    by_cases hc : task.completed
    · simp [calculatePriorityBreakdown, hc]
    · have h2 : task.completed = false := by simpa using hc
      rw [breakdown_finalScore_of_incomplete now task allTasks h2,
        breakdown_totalBeforeBlocked_of_incomplete now task allTasks h2, hnb]
      simp
  · intro hnb h2
    rw [calculateTaskPriority_eq now task allTasks ∅ (by simp) h2, hnb]
    simp

/-- Task E of the spec scenario: blocked only by the completed task F. -/
def taskE : Task :=
  { id := 1, completed := false, priority := 3, dueDate := none,
    startDate := none, updated := none,
    relatedTasks := [{ relation_kind := "blocked", other_task_id := 2 }],
    calculatedPriority := none }

/-- Task F: completed. -/
def taskF : Task :=
  { id := 2, completed := true, priority := 0, dueDate := none,
    startDate := none, updated := none, relatedTasks := [],
    calculatedPriority := none }

/-- Witness for C6: a task blocked only by a completed task is not blocked
and receives no penalty. -/
theorem C6_witness :
    isTaskBlocked taskE [taskE, taskF] = false ∧
    (calculatePriorityBreakdown 0 taskE [taskE, taskF]).finalScore =
      (calculatePriorityBreakdown 0 taskE [taskE, taskF]).totalBeforeBlocked :=
  ⟨by decide, (C6_isBlocked_iff 0 taskE [taskE, taskF]).2.1 (by decide)⟩

/-- C7 (amended): the blocked penalty is additive (`BLOCKED_PENALTY = -5`)
and is applied only to the already-computed pre-penalty total — in the
breakdown and in the scalar score alike — but it CAN turn an
otherwise-positive total into a negative final score (see the
counterexample). -/
theorem C7_penalty_on_total (now : ℤ) (task : Task) (allTasks : List Task)
    (h2 : task.completed = false) (hb : isTaskBlocked task allTasks = true) :
    (calculatePriorityBreakdown now task allTasks).finalScore =
      (calculatePriorityBreakdown now task allTasks).totalBeforeBlocked +
        BLOCKED_PENALTY ∧
    calculateTaskPriority now task allTasks ∅ =
      totalBeforeBlockedOf now task allTasks ∅ + BLOCKED_PENALTY := by
  constructor
  · rw [breakdown_finalScore_of_incomplete now task allTasks h2,
      breakdown_totalBeforeBlocked_of_incomplete now task allTasks h2, hb]
    simp
  · rw [calculateTaskPriority_eq now task allTasks ∅ (by simp) h2, hb]
    simp

/-- Task P: incomplete, declared priority 2, blocked by the incomplete
task Q; its pre-penalty total is 3.9. -/
def taskP : Task :=
  { id := 1, completed := false, priority := 2, dueDate := none,
    startDate := none, updated := none,
    relatedTasks := [{ relation_kind := "blocked", other_task_id := 2 }],
    calculatedPriority := none }

/-- Task Q: incomplete, blocks P. -/
def taskQ : Task :=
  { id := 2, completed := false, priority := 0, dueDate := none,
    startDate := none, updated := none, relatedTasks := [],
    calculatedPriority := none }

/-- Counterexample to C7 as stated: task P has a strictly positive
pre-penalty total (3.9) yet a strictly negative final score (-1.1) after
the additive blocked penalty. -/
theorem C7_counterexample :
    0 < (calculatePriorityBreakdown 0 taskP [taskP, taskQ]).totalBeforeBlocked ∧
    (calculatePriorityBreakdown 0 taskP [taskP, taskQ]).finalScore < 0 := by
  have h2 : taskP.completed = false := rfl
  have hb : isTaskBlocked taskP [taskP, taskQ] = true := by decide
  have htotOf : totalBeforeBlockedOf 0 taskP [taskP, taskQ] ∅ = 39/10 := by
    norm_num [totalBeforeBlockedOf, blockingBonusOf, incompleteDependents,
      getBlockedTasks, getPriorityScore, PRIORITY_LEVELS, evaluateDueDate,
      getStartDateScore, getAgeScore, taskP, taskQ, BLOCKING_BONUS,
      List.filter, List.getD]
    rfl
  have htot : (calculatePriorityBreakdown 0 taskP [taskP, taskQ]).totalBeforeBlocked
      = 39/10 := by
    rw [breakdown_totalBeforeBlocked_of_incomplete 0 taskP [taskP, taskQ] h2, htotOf]
  have hfin : (calculatePriorityBreakdown 0 taskP [taskP, taskQ]).finalScore
      = 39/10 + BLOCKED_PENALTY := by
    rw [breakdown_finalScore_of_incomplete 0 taskP [taskP, taskQ] h2, hb, htotOf]
    simp
  rw [htot, hfin]
  norm_num [BLOCKED_PENALTY]

/-- Witness for C7 at the same concrete blocked task. -/
theorem C7_witness :
    (calculatePriorityBreakdown 0 taskP [taskP, taskQ]).finalScore =
      (calculatePriorityBreakdown 0 taskP [taskP, taskQ]).totalBeforeBlocked +
        BLOCKED_PENALTY :=
  (C7_penalty_on_total 0 taskP [taskP, taskQ] rfl (by decide)).1

lemma sortLE_trans (a b c : Task) (h1 : sortLE a b = true) (h2 : sortLE b c = true) :
    sortLE a c = true := by
  simp only [sortLE] at h1 h2 ⊢
  by_cases hab : a.completed = b.completed
  · rw [if_neg (not_not_intro hab)] at h1
    by_cases hbc : b.completed = c.completed
    · rw [if_neg (not_not_intro hbc)] at h2
      rw [if_neg (not_not_intro (hab.trans hbc))]
      by_cases h3 : a.calculatedPriority.getD 0 = b.calculatedPriority.getD 0
      · rw [if_neg (not_not_intro h3)] at h1
        by_cases h4 : b.calculatedPriority.getD 0 = c.calculatedPriority.getD 0
        · rw [if_neg (not_not_intro h4)] at h2
          rw [if_neg (not_not_intro (h3.trans h4))]
          exact decide_eq_true (le_trans (of_decide_eq_true h2) (of_decide_eq_true h1))
        · rw [if_pos h4] at h2
          rw [if_pos (fun he => h4 (h3.symm.trans he)), h3]
          exact h2
      · rw [if_pos h3] at h1
        by_cases h4 : b.calculatedPriority.getD 0 = c.calculatedPriority.getD 0
        · rw [if_pos (fun he => h3 (he.trans h4.symm)), ← h4]
          exact h1
        · rw [if_pos h4] at h2
          have i1 := of_decide_eq_true h1
          have i2 := of_decide_eq_true h2
          have h5 : ¬ a.calculatedPriority.getD 0 = c.calculatedPriority.getD 0 := by
            intro he
            exact h3 (le_antisymm (he ▸ i2) i1)
          rw [if_pos h5]
          exact decide_eq_true (le_trans i2 i1)
    · have hbF : b.completed = false := by
        cases hB : b.completed
        · rfl
        · rw [if_pos hbc, hB] at h2
          simp at h2
      have hcT : c.completed = true := by
        cases hC : c.completed
        · rw [hC, hbF] at hbc
          exact absurd rfl hbc
        · rfl
      rw [if_pos (fun he : a.completed = c.completed =>
        Bool.false_ne_true ((hab.trans hbF).symm.trans (he.trans hcT)))]
      rw [hab.trans hbF]
      rfl
  · have haF : a.completed = false := by
      cases hA : a.completed
      · rfl
      · rw [if_pos hab, hA] at h1
        simp at h1
    have hbT : b.completed = true := by
      cases hB : b.completed
      · rw [hB, haF] at hab
        exact absurd rfl hab
      · rfl
    by_cases hbc : b.completed = c.completed
    · rw [if_pos (fun he : a.completed = c.completed =>
        Bool.false_ne_true (haF.symm.trans (he.trans (hbc.symm.trans hbT))))]
      rw [haF]
      rfl
    · rw [if_pos hbc, hbT] at h2
      simp at h2

lemma sortLE_total (a b : Task) : (sortLE a b || sortLE b a) = true := by
  simp only [sortLE]
  by_cases h : a.completed = b.completed
  · rw [if_neg (not_not_intro h), if_neg (not_not_intro h.symm)]
    by_cases hp : a.calculatedPriority.getD 0 = b.calculatedPriority.getD 0
    · rw [if_neg (not_not_intro hp), if_neg (not_not_intro hp.symm)]
      rcases le_total b.id a.id with hle | hle
      · simp [hle]
      · simp [hle]
    · rw [if_pos hp, if_pos (fun x => hp x.symm)]
      rcases le_total (b.calculatedPriority.getD 0) (a.calculatedPriority.getD 0)
        with hle | hle
      · simp [hle]
      · simp [hle]
  · rw [if_pos h, if_pos (fun x => h x.symm)]
    cases hA : a.completed <;> cases hB : b.completed <;> simp_all

lemma sortLE_spell (a b : Task) (hab : sortLE a b = true) :
    (a.completed = true → b.completed = true) ∧
    (a.completed = b.completed →
      b.calculatedPriority.getD 0 ≤ a.calculatedPriority.getD 0) ∧
    (a.completed = b.completed →
      a.calculatedPriority.getD 0 = b.calculatedPriority.getD 0 → b.id ≤ a.id) := by
  simp only [sortLE] at hab
  by_cases h : a.completed = b.completed
  · rw [if_neg (not_not_intro h)] at hab
    refine ⟨fun hc => h ▸ hc, fun _ => ?_, fun _ hpe => ?_⟩
    · split_ifs at hab with hp
      · exact of_decide_eq_true hab
      · exact le_of_eq (not_not.mp hp).symm
    · split_ifs at hab with hp
      · exact absurd hpe hp
      · exact of_decide_eq_true hab
  · rw [if_pos h] at hab
    have ha : a.completed = false := by
      cases hA : a.completed
      · rfl
      · rw [hA] at hab
        cases hab
    exact ⟨fun hc => (Bool.false_ne_true (ha.symm.trans hc)).elim,
      fun hcc => absurd hcc h, fun hcc _ => absurd hcc h⟩

/-- C8: `sortByPriority` returns a permutation of its input in which every
completed task comes after every incomplete task; among tasks of equal
completion state the order is descending by calculated score; and
equal-score, equal-completion tasks are ordered by the task id (descending),
so the result is a deterministic function of the input. -/
theorem C8_sort_ordering (tasks : List Task) :
    (sortByPriority tasks).Perm tasks ∧
    (sortByPriority tasks).Pairwise (fun a b =>
      (a.completed = true → b.completed = true) ∧
      (a.completed = b.completed →
        b.calculatedPriority.getD 0 ≤ a.calculatedPriority.getD 0) ∧
      (a.completed = b.completed →
        a.calculatedPriority.getD 0 = b.calculatedPriority.getD 0 → b.id ≤ a.id)) := by
  constructor
  · exact List.mergeSort_perm tasks _
  · exact (List.sorted_mergeSort sortLE_trans sortLE_total tasks).imp
      (fun hab => sortLE_spell _ _ hab)

lemma breakdown_blockingBonus_of_incomplete (now : ℤ) (task : Task)
    (allTasks : List Task) (h2 : task.completed = false) :
    (calculatePriorityBreakdown now task allTasks).blockingBonus =
      blockingBonusOf now task allTasks ∅ := by
  simp only [calculatePriorityBreakdown, h2, Bool.false_eq_true, if_false]
  rfl

/-- C9: the blocking bonus is a fixed flat bonus whenever the task has at
least one incomplete dependent, plus the fixed inheritance fraction
(strictly between 0 and 1) of the recursive score of each incomplete dependent;
hence a task with one incomplete dependent of positive (urgent) score has a
strictly lower blocking bonus than an otherwise-identical task with two
incomplete dependents of at least equal score. -/
theorem C9_blocking_bonus_scales (now : ℤ) (t1 t2 d d1 d2 : Task)
    (allTasks : List Task)
    (h1 : t1.completed = false) (h2 : t2.completed = false)
    (hd1 : incompleteDependents t1 allTasks = [d])
    (hd2 : incompleteDependents t2 allTasks = [d1, d2])
    (hpos : 0 < calculateTaskPriority now d allTasks (insert t1.id ∅))
    (hge1 : calculateTaskPriority now d allTasks (insert t1.id ∅)
      ≤ calculateTaskPriority now d1 allTasks (insert t2.id ∅))
    (hge2 : calculateTaskPriority now d allTasks (insert t1.id ∅)
      ≤ calculateTaskPriority now d2 allTasks (insert t2.id ∅)) :
    0 < BLOCKING_INHERITANCE ∧ BLOCKING_INHERITANCE < 1 ∧
    (∀ t : Task, t.completed = false →
      (calculatePriorityBreakdown now t allTasks).blockingBonus =
        (if (incompleteDependents t allTasks).isEmpty then 0 else BLOCKING_BONUS) +
          ((incompleteDependents t allTasks).map (fun e =>
            calculateTaskPriority now e allTasks (insert t.id ∅)
              * BLOCKING_INHERITANCE)).sum) ∧
    (calculatePriorityBreakdown now t1 allTasks).blockingBonus
      < (calculatePriorityBreakdown now t2 allTasks).blockingBonus := by
  refine ⟨by norm_num [BLOCKING_INHERITANCE], by norm_num [BLOCKING_INHERITANCE],
    fun t ht => breakdown_blockingBonus_of_incomplete now t allTasks ht, ?_⟩
  rw [breakdown_blockingBonus_of_incomplete now t1 allTasks h1,
    breakdown_blockingBonus_of_incomplete now t2 allTasks h2]
  unfold blockingBonusOf
  rw [hd1, hd2]
  simp only [List.isEmpty_cons, List.map_cons, List.map_nil, List.sum_cons,
    List.sum_nil, BLOCKING_INHERITANCE]
  norm_num
  simp only [Finset.insert_empty] at hpos hge1 hge2
  linarith

/-- Dependent task (id 10, priority 5) for the C9 witness. -/
def w9d : Task :=
  { id := 10, completed := false, priority := 5, dueDate := none,
    startDate := none, updated := none, relatedTasks := [], calculatedPriority := none }

/-- Dependent task (id 11, priority 5) for the C9 witness. -/
def w9d1 : Task :=
  { id := 11, completed := false, priority := 5, dueDate := none,
    startDate := none, updated := none, relatedTasks := [], calculatedPriority := none }

/-- Dependent task (id 12, priority 5) for the C9 witness. -/
def w9d2 : Task :=
  { id := 12, completed := false, priority := 5, dueDate := none,
    startDate := none, updated := none, relatedTasks := [], calculatedPriority := none }

/-- A task blocking one urgent task (id 10). -/
def w9t1 : Task :=
  { id := 1, completed := false, priority := 0, dueDate := none,
    startDate := none, updated := none,
    relatedTasks := [{ relation_kind := "blocking", other_task_id := 10 }],
    calculatedPriority := none }

/-- An otherwise-identical task blocking two equally urgent tasks. -/
def w9t2 : Task :=
  { id := 2, completed := false, priority := 0, dueDate := none,
    startDate := none, updated := none,
    relatedTasks := [{ relation_kind := "blocking", other_task_id := 11 },
      { relation_kind := "blocking", other_task_id := 12 }],
    calculatedPriority := none }

/-- The C9 witness collection. -/
def w9Tasks : List Task := [w9t1, w9t2, w9d, w9d1, w9d2]

lemma score_simple (now : ℤ) (t : Task) (allTasks : List Task) (visited : Finset ℤ)
    (h1 : t.id ∉ visited) (h2 : t.completed = false)
    (hnb : isTaskBlocked t allTasks = false)
    (hnd : incompleteDependents t allTasks = []) :
    calculateTaskPriority now t allTasks visited =
      getPriorityScore t.priority + (evaluateDueDate now t.dueDate).score +
        getStartDateScore now t.startDate + getAgeScore now t.updated := by
  rw [calculateTaskPriority_eq now t allTasks visited h1 h2, hnb]
  simp [totalBeforeBlockedOf, blockingBonusOf, hnd]

lemma w9d_score (v : Finset ℤ) (h : (10 : ℤ) ∉ v) :
    calculateTaskPriority 0 w9d w9Tasks v = 8 := by
  rw [score_simple 0 w9d w9Tasks v h rfl (by decide) (by decide)]
  norm_num [w9d, getPriorityScore, PRIORITY_LEVELS, evaluateDueDate,
    getStartDateScore, getAgeScore]
  rfl

lemma w9d1_score (v : Finset ℤ) (h : (11 : ℤ) ∉ v) :
    calculateTaskPriority 0 w9d1 w9Tasks v = 8 := by
  rw [score_simple 0 w9d1 w9Tasks v h rfl (by decide) (by decide)]
  norm_num [w9d1, getPriorityScore, PRIORITY_LEVELS, evaluateDueDate,
    getStartDateScore, getAgeScore]
  rfl

lemma w9d2_score (v : Finset ℤ) (h : (12 : ℤ) ∉ v) :
    calculateTaskPriority 0 w9d2 w9Tasks v = 8 := by
  rw [score_simple 0 w9d2 w9Tasks v h rfl (by decide) (by decide)]
  norm_num [w9d2, getPriorityScore, PRIORITY_LEVELS, evaluateDueDate,
    getStartDateScore, getAgeScore]
  rfl

/-- Witness for C9: blocking two urgent tasks earns a strictly larger bonus
than blocking one. -/
theorem C9_witness :
    (calculatePriorityBreakdown 0 w9t1 w9Tasks).blockingBonus
      < (calculatePriorityBreakdown 0 w9t2 w9Tasks).blockingBonus :=
  (C9_blocking_bonus_scales 0 w9t1 w9t2 w9d w9d1 w9d2 w9Tasks rfl rfl
    (by decide) (by decide)
    (by rw [w9d_score _ (by decide)]; norm_num)
    (by rw [w9d_score _ (by decide), w9d1_score _ (by decide)])
    (by rw [w9d_score _ (by decide), w9d2_score _ (by decide)])).2.2.2

/-- C10: for a completed task — even one with a present, parsable due
date — the breakdown reports `hasDueDate = false` and omits the `ageScore`
component entirely (`none`), whereas the breakdown of every incomplete task
carries `some` age score. -/
theorem C10_completed_breakdown (now : ℤ) (task : Task) (allTasks : List Task)
    (d : ℤ) (h : task.completed = true) (hd : task.dueDate = some d) :
    (calculatePriorityBreakdown now task allTasks).hasDueDate = false ∧
    (calculatePriorityBreakdown now task allTasks).ageScore = none ∧
    (∀ t2 : Task, t2.completed = false →
      (calculatePriorityBreakdown now t2 allTasks).ageScore =
        some (getAgeScore now t2.updated)) := by
  refine ⟨?_, ?_, ?_⟩
  · simp [calculatePriorityBreakdown, h]
  · simp [calculatePriorityBreakdown, h]
  · intro t2 h2
    simp only [calculatePriorityBreakdown, h2, Bool.false_eq_true, if_false]

/-- A completed task carrying a parsable due date. -/
def c10task : Task :=
  { id := 3, completed := true, priority := 1, dueDate := some 99,
    startDate := none, updated := some 5, relatedTasks := [],
    calculatedPriority := none }

/-- Witness for C10 at a concrete completed task with a due date. -/
theorem C10_witness :
    c10task.completed = true ∧ c10task.dueDate = some 99 ∧
    (calculatePriorityBreakdown 0 c10task []).hasDueDate = false ∧
    (calculatePriorityBreakdown 0 c10task []).ageScore = none :=
  ⟨rfl, rfl, (C10_completed_breakdown 0 c10task [] 99 rfl rfl).1,
    (C10_completed_breakdown 0 c10task [] 99 rfl rfl).2.1⟩

/-- C1 (amended): `calculatePriorities` terminates on every collection —
the recursion is well-founded because the visited set grows on every
recursive call — and assigns every task a score (`some q`); and
`calculateTaskPriority` returns 0 whenever the current task id is already
in the per-call visited set, so no traversal revisits a node.  The final
score of a cycle member is a well-defined rational but, with the additive
blocked penalty, it can be negative (see the counterexample). -/
theorem C1_cycle_safe (now : ℤ) (tasks : List Task) :
    (calculatePriorities now tasks).length = tasks.length ∧
    (∀ t : Task, t ∈ calculatePriorities now tasks →
      ∃ q : ℚ, t.calculatedPriority = some q) ∧
    (∀ (task : Task) (allTasks : List Task) (visited : Finset ℤ),
      task.id ∈ visited → calculateTaskPriority now task allTasks visited = 0) := by
  refine ⟨List.length_map tasks _, ?_, ?_⟩
  · intro t ht
    rcases List.mem_map.mp ht with ⟨x, _, hx⟩
    exact ⟨calculateTaskPriority now x tasks ∅, hx ▸ rfl⟩
  · intro task allTasks visited hv
    exact calculateTaskPriority_visited now task allTasks visited hv

/-- Cycle member A: declares it blocks B (and is blocked by B), and also
blocks the three leaf tasks. -/
def exA : Task :=
  { id := 1, completed := false, priority := 0, dueDate := none,
    startDate := none, updated := none,
    relatedTasks := [{ relation_kind := "blocking", other_task_id := 2 },
      { relation_kind := "blocked", other_task_id := 2 },
      { relation_kind := "blocking", other_task_id := 3 },
      { relation_kind := "blocking", other_task_id := 4 },
      { relation_kind := "blocking", other_task_id := 5 }],
    calculatedPriority := none }

/-- Cycle member B: declares it blocks A. -/
def exB : Task :=
  { id := 2, completed := false, priority := 0, dueDate := none,
    startDate := none, updated := none,
    relatedTasks := [{ relation_kind := "blocking", other_task_id := 1 }],
    calculatedPriority := none }

/-- Leaf task with a future start date, blocked by the incomplete task D. -/
def exL1 : Task :=
  { id := 3, completed := false, priority := 0, dueDate := none,
    startDate := some 1, updated := none,
    relatedTasks := [{ relation_kind := "blocked", other_task_id := 6 }],
    calculatedPriority := none }

/-- Second leaf task, identical to the first apart from its id. -/
def exL2 : Task :=
  { id := 4, completed := false, priority := 0, dueDate := none,
    startDate := some 1, updated := none,
    relatedTasks := [{ relation_kind := "blocked", other_task_id := 6 }],
    calculatedPriority := none }

/-- Third leaf task, identical to the first apart from its id. -/
def exL3 : Task :=
  { id := 5, completed := false, priority := 0, dueDate := none,
    startDate := some 1, updated := none,
    relatedTasks := [{ relation_kind := "blocked", other_task_id := 6 }],
    calculatedPriority := none }

/-- Plain incomplete task blocking the leaves. -/
def exD : Task :=
  { id := 6, completed := false, priority := 0, dueDate := none,
    startDate := none, updated := none, relatedTasks := [],
    calculatedPriority := none }

/-- The cyclic collection: A blocks B, B blocks A, plus three negative
leaves dragged in through the blocking bonus of A. -/
def exTasks : List Task := [exA, exB, exL1, exL2, exL3, exD]

lemma exL1_score (v : Finset ℤ) (h : (3 : ℤ) ∉ v) :
    calculateTaskPriority 0 exL1 exTasks v = -8 := by
  rw [calculateTaskPriority_eq 0 exL1 exTasks v h rfl]
  have hb : isTaskBlocked exL1 exTasks = true := by decide
  have hnd : incompleteDependents exL1 exTasks = [] := by decide
  rw [hb, if_pos rfl]
  unfold totalBeforeBlockedOf blockingBonusOf
  rw [hnd]
  norm_num [exL1, getPriorityScore, PRIORITY_LEVELS, evaluateDueDate,
    getStartDateScore, getAgeScore, START_DATE_FUTURE_PENALTY, BLOCKED_PENALTY]

lemma exL2_score (v : Finset ℤ) (h : (4 : ℤ) ∉ v) :
    calculateTaskPriority 0 exL2 exTasks v = -8 := by
  rw [calculateTaskPriority_eq 0 exL2 exTasks v h rfl]
  have hb : isTaskBlocked exL2 exTasks = true := by decide
  have hnd : incompleteDependents exL2 exTasks = [] := by decide
  rw [hb, if_pos rfl]
  unfold totalBeforeBlockedOf blockingBonusOf
  rw [hnd]
  norm_num [exL2, getPriorityScore, PRIORITY_LEVELS, evaluateDueDate,
    getStartDateScore, getAgeScore, START_DATE_FUTURE_PENALTY, BLOCKED_PENALTY]

lemma exL3_score (v : Finset ℤ) (h : (5 : ℤ) ∉ v) :
    calculateTaskPriority 0 exL3 exTasks v = -8 := by
  rw [calculateTaskPriority_eq 0 exL3 exTasks v h rfl]
  have hb : isTaskBlocked exL3 exTasks = true := by decide
  have hnd : incompleteDependents exL3 exTasks = [] := by decide
  rw [hb, if_pos rfl]
  unfold totalBeforeBlockedOf blockingBonusOf
  rw [hnd]
  norm_num [exL3, getPriorityScore, PRIORITY_LEVELS, evaluateDueDate,
    getStartDateScore, getAgeScore, START_DATE_FUTURE_PENALTY, BLOCKED_PENALTY]

lemma exB_score :
    calculateTaskPriority 0 exB exTasks (insert exA.id ∅) = 8 := by
  rw [calculateTaskPriority_eq 0 exB exTasks (insert exA.id ∅) (by decide) rfl]
  have hnb : isTaskBlocked exB exTasks = false := by decide
  have hnd : incompleteDependents exB exTasks = [exA] := by decide
  rw [hnb, if_neg Bool.false_ne_true]
  unfold totalBeforeBlockedOf blockingBonusOf
  rw [hnd]
  simp only [List.map_cons, List.map_nil, List.sum_cons, List.sum_nil]
  have hA0 : calculateTaskPriority 0 exA exTasks (insert exB.id (insert exA.id ∅)) = 0 :=
    calculateTaskPriority_visited 0 exA exTasks _ (by decide)
  rw [hA0]
  norm_num [exB, getPriorityScore, PRIORITY_LEVELS, evaluateDueDate,
    getStartDateScore, getAgeScore, BLOCKING_BONUS]

lemma exA_score : calculateTaskPriority 0 exA exTasks ∅ = -1/5 := by
  rw [calculateTaskPriority_eq 0 exA exTasks ∅ (by decide) rfl]
  have hb : isTaskBlocked exA exTasks = true := by decide
  have hnd : incompleteDependents exA exTasks = [exB, exL1, exL2, exL3] := by decide
  rw [hb, if_pos rfl]
  unfold totalBeforeBlockedOf blockingBonusOf
  rw [hnd]
  simp only [List.map_cons, List.map_nil, List.sum_cons, List.sum_nil]
  rw [exB_score, exL1_score _ (by decide), exL2_score _ (by decide),
    exL3_score _ (by decide)]
  norm_num [exA, getPriorityScore, PRIORITY_LEVELS, evaluateDueDate,
    getStartDateScore, getAgeScore, BLOCKING_BONUS, BLOCKING_INHERITANCE,
    BLOCKED_PENALTY]

/-- Counterexample to C1 as stated: the collection `exTasks` has a genuine
length-2 cycle (A declares it blocks B, B declares it blocks A, both
incomplete), the computation terminates, but the final score of cycle member A
is -1/5, negative after the blocked penalty. -/
theorem C1_counterexample :
    exA.completed = false ∧ exB.completed = false ∧
    (exA.relatedTasks.any (fun r =>
      r.relation_kind == "blocking" && r.other_task_id == exB.id)) = true ∧
    (exB.relatedTasks.any (fun r =>
      r.relation_kind == "blocking" && r.other_task_id == exA.id)) = true ∧
    calculateTaskPriority 0 exA exTasks ∅ = -1/5 ∧
    calculateTaskPriority 0 exA exTasks ∅ < 0 := by
  refine ⟨rfl, rfl, by decide, by decide, exA_score, ?_⟩
  rw [exA_score]
  norm_num

/-- Witness for C1 at the cyclic collection: the batch pass assigns a score
to all six tasks and the visited-set guard returns 0. -/
theorem C1_witness :
    (calculatePriorities 0 exTasks).length = exTasks.length ∧
    calculateTaskPriority 0 exA exTasks {exA.id} = 0 :=
  ⟨(C1_cycle_safe 0 exTasks).1,
    (C1_cycle_safe 0 exTasks).2.2 exA exTasks {exA.id} (Finset.mem_singleton_self _)⟩

/-- Witness for C2 at a concrete task and collection. -/
theorem C2_witness :
    calculateTaskPriority 0 taskE [taskE, taskF] ∅ =
      (calculatePriorityBreakdown 0 taskE [taskE, taskF]).finalScore :=
  C2_scalar_eq_breakdown 0 taskE [taskE, taskF]

/-- Witness for C8 at a concrete two-task list. -/
theorem C8_witness :
    (sortByPriority [taskE, taskF]).Perm [taskE, taskF] :=
  (C8_sort_ordering [taskE, taskF]).1

end Vikunja
